import Mathlib

/-!
Verification of the Volume_Tracker repository (src/app.py) against its
natural-language specification.

The script derives per-symbol volume metrics with pandas over a fetched
price/volume history, aggregates them into a ranked table, and stores
users and watchlists in SQLite.  We embed the arithmetic and control flow
shallowly:

* pandas float columns are modelled by `FVal`: a finite rational, `nan`,
  or a signed infinity.  All inputs (prices, volumes) are finite; the
  non-finite values arise only from division by zero (`0/0` is NaN,
  `x/0` is a signed infinity for `x ≠ 0`) and from NaN propagation
  (rolling windows shorter than 10, `pct_change` of the first row).
* dates are abstract integers ordered like the tz-aware timestamps the
  script compares; the current year's January 1 (`ytd_start` in the
  code) is passed in as a parameter.
* the SQLite tables are lists of tuples; `INSERT` raises
  `IntegrityError` exactly when a declared constraint is violated
  (`users.username` is `UNIQUE`; `user_symbols` declares no constraint,
  and SQLite leaves foreign keys unenforced unless a pragma the script
  never issues turns them on).
-/

/-- A pandas float cell: finite rational, NaN, or a signed infinity. -/
inductive FVal where
  | nan : FVal
  | ninf : FVal
  | fin : Rat → FVal
  | pinf : FVal
deriving DecidableEq, Repr, Inhabited

namespace FVal

/-- IEEE subtraction restricted to the values that occur here. -/
def sub : FVal → FVal → FVal
  | nan, _ => nan
  | _, nan => nan
  | pinf, pinf => nan
  | pinf, _ => pinf
  | ninf, ninf => nan
  | ninf, _ => ninf
  | fin _, pinf => ninf
  | fin _, ninf => pinf
  | fin a, fin b => fin (a - b)

/-- IEEE division: `0/0` is NaN, `x/0` is a signed infinity for `x ≠ 0`
(the sign of zero is not tracked; no claim depends on it). -/
def div : FVal → FVal → FVal
  | nan, _ => nan
  | _, nan => nan
  | pinf, pinf => nan
  | pinf, ninf => nan
  | ninf, pinf => nan
  | ninf, ninf => nan
  | pinf, fin b => if b < 0 then ninf else pinf
  | ninf, fin b => if b < 0 then pinf else ninf
  | fin _, pinf => fin 0
  | fin _, ninf => fin 0
  | fin a, fin b =>
      if b = 0 then (if a = 0 then nan else if 0 < a then pinf else ninf)
      else fin (a / b)

/-- Multiplication by the positive constant 100. -/
def mul100 : FVal → FVal
  | nan => nan
  | pinf => pinf
  | ninf => ninf
  | fin a => fin (100 * a)

/-- Whether the cell is NaN (pandas `isna` on a float column). -/
def isNan : FVal → Bool
  | nan => true
  | _ => false

/-- The float `<` comparison: every comparison against NaN is false. -/
def lt : FVal → FVal → Bool
  | nan, _ => false
  | _, nan => false
  | ninf, ninf => false
  | ninf, _ => true
  | fin _, ninf => false
  | fin a, fin b => decide (a < b)
  | fin _, pinf => true
  | pinf, _ => false

/-- Coarse order rank used to state the sort comparator: `ninf < fin < pinf < nan`. -/
def rank : FVal → Int
  | ninf => -1
  | fin _ => 0
  | pinf => 1
  | nan => 2

/-- The finite payload (0 for non-finite cells). -/
def finVal : FVal → Rat
  | fin q => q
  | _ => 0

end FVal

/-- One row of the fetched one-year history: date (abstract ordinal),
close price and volume.  Open/high/low are never read by the script. -/
structure PriceRow where
  date : Int
  close : Rat
  volume : Rat
deriving DecidableEq, Repr, Inhabited

/-- `hist['Volume'].rolling(window=10).mean()` at index `i`: NaN until
ten observations are available, then the mean of `volume[i-9..i]`. -/
def avgVolumeAt (vols : List Rat) (i : Nat) : FVal :=
  if i < 9 then FVal.nan
  else FVal.fin (((vols.drop (i - 9)).take 10).sum / 10)

/-- `(hist['Volume'] - hist['Avg_Volume']) / hist['Avg_Volume'] * 100` at index `i`. -/
def volumeChangeAt (vols : List Rat) (i : Nat) : FVal :=
  (((FVal.fin (vols.getD i 0)).sub (avgVolumeAt vols i)).div (avgVolumeAt vols i)).mul100

/-- `hist['Close'].pct_change() * 100` at index `i`.  pandas computes
`pct_change` as `x / x.shift(1) - 1`; the shifted series is NaN at the
first row. -/
def dailyChangeAt (closes : List Rat) (i : Nat) : FVal :=
  if i = 0 then FVal.nan
  else (((FVal.fin (closes.getD i 0)).div (FVal.fin (closes.getD (i - 1) 0))).sub
    (FVal.fin 1)).mul100

/-- Reference definition from the spec: `avg_volume[i]` is the
arithmetic mean of `volume[i-9..i]`, undefined for the first 9 rows. -/
def specAvgVolumeAt (vols : List Rat) (i : Nat) : FVal :=
  if i < 9 then FVal.nan
  else FVal.fin ((((List.range 10).map (fun k => vols.getD (i - 9 + k) 0)).sum) / 10)

/-- Reference definition from the spec:
`volume_change[i] = (volume[i] - avg_volume[i]) / avg_volume[i] * 100`. -/
def specVolumeChangeAt (vols : List Rat) (i : Nat) : FVal :=
  (((FVal.fin (vols.getD i 0)).sub (specAvgVolumeAt vols i)).div
    (specAvgVolumeAt vols i)).mul100

/-- Reference definition from the spec:
`daily_change[i] = (close[i] - close[i-1]) / close[i-1] * 100`, undefined
for the first row. -/
def specDailyChangeAt (closes : List Rat) (i : Nat) : FVal :=
  if i = 0 then FVal.nan
  else (((FVal.fin (closes.getD i 0)).sub (FVal.fin (closes.getD (i - 1) 0))).div
    (FVal.fin (closes.getD (i - 1) 0))).mul100

/-- The daily-change cell of the last row of a series. -/
def lastDailyChange (hist : List PriceRow) : FVal :=
  dailyChangeAt (hist.map (·.close)) (hist.length - 1)

/-- The volume-change cell of the last row of a series. -/
def lastVolumeChange (hist : List PriceRow) : FVal :=
  volumeChangeAt (hist.map (·.volume)) (hist.length - 1)

/-- The summary row `analyze_stock` assembles from the last row of the
history (`hist.iloc[-1]`). -/
structure MetricRow where
  symbol : String
  close : Rat
  dailyChange : FVal
  ytdReturn : FVal
  volume : Rat
  avgVolume : FVal
  volumeChange : FVal
  date : Int
deriving DecidableEq, Repr, Inhabited

/-- Outcome of `analyze_stock`: `None` for an empty history, an
uncaught `IndexError` when no observation lies on/after the YTD start,
or a summary row. -/
inductive AnalyzeResult where
  | noData : AnalyzeResult
  | ytdError : AnalyzeResult
  | row : MetricRow → AnalyzeResult
deriving DecidableEq, Repr

/-- `hist.iloc[-1]`. -/
def lastRow (hist : List PriceRow) : PriceRow :=
  hist.getD (hist.length - 1) ⟨0, 0, 0⟩

/-- `analyze_stock` (src/app.py lines 105-132): returns `None` on an
empty history; otherwise computes the rolling-average, volume-change and
daily-change columns, looks up the first close on/after `ytdStart`
(raising if there is none), and returns the last row's metrics. -/
def analyze_stock (symbol : String) (hist : List PriceRow) (ytdStart : Int) : AnalyzeResult :=
  if hist.isEmpty then .noData
  else
    match hist.find? (fun r => decide (ytdStart ≤ r.date)) with
    | none => .ytdError
    | some r0 =>
      .row
        { symbol := symbol
          close := (lastRow hist).close
          dailyChange := dailyChangeAt (hist.map (·.close)) (hist.length - 1)
          ytdReturn :=
            (((FVal.fin (lastRow hist).close).sub (FVal.fin r0.close)).div
              (FVal.fin r0.close)).mul100
          volume := (lastRow hist).volume
          avgVolume := avgVolumeAt (hist.map (·.volume)) (hist.length - 1)
          volumeChange := volumeChangeAt (hist.map (·.volume)) (hist.length - 1)
          date := (lastRow hist).date }

/-- Round half to even (numpy / pandas `round`), as an integer. -/
def roundHalfEven (q : Rat) : Int :=
  if q - Rat.floor q < 1 / 2 then Rat.floor q
  else if 1 / 2 < q - Rat.floor q then Rat.floor q + 1
  else if Rat.floor q % 2 = 0 then Rat.floor q else Rat.floor q + 1

/-- `.round(2)` on a float cell (non-finite cells are unchanged). -/
def round2 : FVal → FVal
  | .fin q => .fin ((roundHalfEven (100 * q) : Rat) / 100)
  | v => v

/-- `astype(int)`: truncation toward zero. -/
def ratTrunc (q : Rat) : Int :=
  if q < 0 then -Rat.floor (-q) else Rat.floor q

/-- One row of the rendered table.  The displayed `Price` string fuses
the rounded close and daily change; we keep the two rounded components
instead of the formatted text. -/
structure DisplayRow where
  symbol : String
  close : Rat
  dailyChange : FVal
  volumeChange : FVal
  volume : Int
  avgVolume : Int
  ytdReturn : FVal
  date : Int
deriving DecidableEq, Repr, Inhabited

/-- Per-row rendering (src/app.py lines 171, 174-180): `Avg_Volume` is
`fillna(0).round(0).astype(int)` — the non-`fin` fallback 0 is the
`fillna`; infinities cannot occur in a rolling mean of finite volumes —
close/daily/YTD/volume-change are rounded to 2 decimals and `Volume` is
cast to int. -/
def toDisplay (r : MetricRow) : DisplayRow :=
  { symbol := r.symbol
    close := (roundHalfEven (100 * r.close) : Rat) / 100
    dailyChange := round2 r.dailyChange
    volumeChange := round2 r.volumeChange
    volume := ratTrunc r.volume
    avgVolume := roundHalfEven (match r.avgVolume with | .fin q => q | _ => 0)
    ytdReturn := round2 r.ytdReturn
    date := r.date }

/-- The comparison the ascending argsort inside `sort_values` orders the
non-NaN keys by, made total by breaking exact ties with *descending*
original position: pandas hands the argsort the reversed values and
indices (`non_nans[::-1]`, `non_nan_idx[::-1]`) when `ascending=False`,
so stability there keeps equal keys in reversed-input order, i.e. larger
original index first.  Index `i` precedes `j` when its key is smaller in
the float order (`ninf`, then finite values, then `pinf`), or the keys
are equal and `j ≤ i`. -/
def keyR (keys : List FVal) (i j : Nat) : Prop :=
  (keys.getD i .nan).rank < (keys.getD j .nan).rank ∨
  ((keys.getD i .nan).rank = (keys.getD j .nan).rank ∧
    ((keys.getD i .nan).finVal < (keys.getD j .nan).finVal ∨
     ((keys.getD i .nan).finVal = (keys.getD j .nan).finVal ∧ j ≤ i)))

instance keyRDecidable (keys : List FVal) : DecidableRel (keyR keys) := fun i j => by
  unfold keyR
  exact inferInstance

/-- pandas `nargsort` for `sort_values(by=..., ascending=False)`: the
non-NaN values and their indices are first reversed
(`non_nans[::-1]`, `non_nan_idx[::-1]`), stable-argsorted ascending
(numpy's small-array insertion sort is stable), the resulting indexer is
reversed again, and the NaN positions are appended in original order
(`na_position='last'`).  Stability of the ascending phase on the
reversed input is what `keyR`'s descending-index tie-break encodes, so
the double reversal leaves exact ties in original fetch order. -/
def nargsortDesc (keys : List FVal) : List Nat :=
  (List.insertionSort (keyR keys)
      (((List.range keys.length).filter (fun i => !(keys.getD i .nan).isNan)).reverse)).reverse ++
    (List.range keys.length).filter (fun i => (keys.getD i .nan).isNan)

/-- Relation between successive output positions of the descending sort:
either the later row's key is NaN (NaN rows come last), or both keys are
comparable, the earlier key is not below the later one, and exact ties
appear in original fetch order (the sort is stable). -/
def afterRel (keys : List FVal) (i j : Nat) : Prop :=
  (keys.getD j .nan).isNan = true ∨
  ((keys.getD i .nan).isNan = false ∧
    FVal.lt (keys.getD i .nan) (keys.getD j .nan) = false ∧
    (keys.getD i .nan = keys.getD j .nan → i < j))

/-- The aggregation/column pipeline of `run_volume_tracker` (src/app.py
lines 170-183): build a DataFrame from the metric rows, fill the NaN
average volumes, sort descending by `Volume_Change`, and round/cast the
displayed columns. -/
def buildTable (results : List MetricRow) : List DisplayRow :=
  (nargsortDesc (results.map (·.volumeChange))).map
    (fun i => toDisplay (results.getD i default))

/-- The fetch-and-analyze loop (src/app.py lines 163-167): analyze each
symbol in order, skip `None` results, and let an uncaught `IndexError`
escape the whole loop (`.error`). -/
def collectResults (fetch : String → List PriceRow) (ytdStart : Int) :
    List String → Except Unit (List MetricRow)
  | [] => .ok []
  | s :: rest =>
    match analyze_stock s (fetch s) ytdStart with
    | .noData => collectResults fetch ytdStart rest
    | .ytdError => .error ()
    | .row r => (collectResults fetch ytdStart rest).map (fun rs => r :: rs)

/-- What one refresh renders: the info message for an empty watchlist,
an uncaught exception, the "No valid data found" warning, or the ranked
table. -/
inductive RenderOutcome where
  | noSymbols : RenderOutcome
  | crash : RenderOutcome
  | noValidData : RenderOutcome
  | table : List DisplayRow → RenderOutcome
deriving DecidableEq, Repr

/-- The main-page logic of `run_volume_tracker` (src/app.py lines
160-208): with no symbols show the info message; otherwise fetch and
analyze all symbols (an uncaught error escapes), warn when no symbol
produced data, and otherwise render the ranked table. -/
def runVolumeTracker (fetch : String → List PriceRow) (ytdStart : Int)
    (symbols : List String) : RenderOutcome :=
  if symbols.isEmpty then .noSymbols
  else
    match collectResults fetch ytdStart symbols with
    | .error _ => .crash
    | .ok [] => .noValidData
    | .ok results => .table (buildTable results)

/-- A row of the `users` table (`id INTEGER PRIMARY KEY`,
`username TEXT UNIQUE`, `password TEXT`). -/
structure UserRec where
  id : Nat
  username : String
  passwordHash : String
deriving DecidableEq, Repr

/-- The SQLite database: the `users` table and the `user_symbols` table
(`user_id INTEGER, symbol TEXT`, no unique or primary-key constraint). -/
structure DB where
  users : List UserRec
  userSymbols : List (Nat × String)
deriving DecidableEq, Repr

/-- The rowid SQLite assigns to the next inserted user: one more than
the largest existing id (1 for an empty table). -/
def nextUserId (db : DB) : Nat :=
  (db.users.map (·.id)).foldr max 0 + 1

/-- `add_user` (src/app.py lines 29-40): the INSERT raises
`IntegrityError` exactly when the UNIQUE constraint on `username` is
violated; on success the row is appended with a fresh id. -/
def add_user (h : String → String) (db : DB) (username password : String) : DB × Bool :=
  if db.users.any (fun u => u.username == username) then (db, false)
  else ({ db with users := db.users ++ [⟨nextUserId db, username, h password⟩] }, true)

/-- `verify_user` (src/app.py lines 42-50): fetch the first row matching
the username and compare the stored hash with the hash of the supplied
password. -/
def verify_user (h : String → String) (db : DB) (username password : String) : Option Nat :=
  match db.users.find? (fun u => u.username == username) with
  | none => none
  | some u => if u.passwordHash = h password then some u.id else none

/-- `add_symbol` (src/app.py lines 60-70): the INSERT into
`user_symbols` is unconditional — the table declares no UNIQUE or
PRIMARY KEY constraint and foreign keys are not enforced, so
`IntegrityError` can never fire and the function always returns True. -/
def add_symbol (db : DB) (userId : Nat) (symbol : String) : DB × Bool :=
  ({ db with userSymbols := db.userSymbols ++ [(userId, symbol)] }, true)

/-- `get_user_symbols` (src/app.py lines 52-58). -/
def get_user_symbols (db : DB) (userId : Nat) : List String :=
  (db.userSymbols.filter (fun p => p.1 == userId)).map (·.2)

/-- Concrete two-row series with constant close price 0. -/
def ce6 : List PriceRow := [⟨0, 0, 5⟩, ⟨1, 0, 5⟩]

/-- Concrete ten-row series whose volume is the constant 0. -/
def ce7 : List PriceRow :=
  [⟨0, 1, 0⟩, ⟨1, 1, 0⟩, ⟨2, 1, 0⟩, ⟨3, 1, 0⟩, ⟨4, 1, 0⟩,
   ⟨5, 1, 0⟩, ⟨6, 1, 0⟩, ⟨7, 1, 0⟩, ⟨8, 1, 0⟩, ⟨9, 1, 0⟩]

/-- Two metric rows with identical volume-change keys but different
symbols, in fetch order AAA then BBB. -/
def mrA : MetricRow :=
  { symbol := "AAA", close := 1, dailyChange := .fin 1, ytdReturn := .fin 1,
    volume := 1, avgVolume := .fin 1, volumeChange := .fin 5, date := 0 }

/-- Second row of the tie example. -/
def mrB : MetricRow :=
  { symbol := "BBB", close := 2, dailyChange := .fin 1, ytdReturn := .fin 1,
    volume := 1, avgVolume := .fin 1, volumeChange := .fin 5, date := 0 }

/-- A metric row whose rolling average volume is NaN (series shorter
than 10 rows). -/
def mrNan : MetricRow :=
  { symbol := "NNN", close := 1, dailyChange := .nan, ytdReturn := .fin 0,
    volume := 1, avgVolume := .nan, volumeChange := .nan, date := 0 }

/-- Fetch map for the C5 counterexample: symbol B has a single
observation dated before the YTD start, symbol A has none. -/
def fetchCE5 : String → List PriceRow :=
  fun s => if s = "B" then [⟨0, 5, 5⟩] else []

/-- Fetch map for the C5 witness: symbol B has a single observation on
the YTD start, symbol A has none. -/
def fetchW5 : String → List PriceRow :=
  fun s => if s = "B" then [⟨5, 8, 3⟩] else []

theorem dailyChangeAt_eq_spec (closes : List Rat) (i : Nat) :
    dailyChangeAt closes i = specDailyChangeAt closes i := by
  unfold dailyChangeAt specDailyChangeAt
  by_cases h0 : i = 0
  · simp [h0]
  · simp only [h0, if_false]
    generalize closes.getD i 0 = c
    generalize closes.getD (i - 1) 0 = p
    by_cases hpz : p = 0
    · subst hpz
      by_cases hcz : c = 0
      · subst hcz
        simp [FVal.div, FVal.sub, FVal.mul100]
      · rcases lt_trichotomy c 0 with hlt | heq | hgt
        · simp [FVal.div, FVal.sub, FVal.mul100, hcz, not_lt.mpr (le_of_lt hlt), hlt]
        · exact absurd heq hcz
        · simp [FVal.div, FVal.sub, FVal.mul100, hcz, hgt]
    · have key : c / p - 1 = (c - p) / p := by
        field_simp
      simp [FVal.div, FVal.sub, FVal.mul100, hpz, key]

theorem closes_getD_of_mem (hist : List PriceRow) (c : Rat) (j : Nat)
    (hj : j < hist.length) (hall : ∀ r ∈ hist, r.close = c) :
    (hist.map (·.close)).getD j 0 = c := by
  have hlen : j < (hist.map (·.close)).length := by
    simpa using hj
  rw [List.getD_eq_getElem _ _ hlen]
  simp only [List.getElem_map]
  exact hall _ (hist.getElem_mem hj)

/-- C6 counterexample: a two-row series whose close price is the constant 0
has last daily change NaN (pandas computes 0/0), not 0, so the claim as
stated fails. -/
theorem C6_counterexample :
    2 ≤ ce6.length ∧ (∀ r ∈ ce6, r.close = 0) ∧ lastDailyChange ce6 ≠ FVal.fin 0 := by
  refine ⟨by decide, by decide, by decide⟩

/-- C6 (amended): for every PriceSeries with at least 2 rows whose close
price is the same nonzero value everywhere, the daily change of the last
row is 0.  (The original claim fails when the repeated close is 0: pandas
then evaluates 0/0, which is NaN.) -/
theorem C6_amended_constant_close (hist : List PriceRow) (c : Rat)
    (hlen : 2 ≤ hist.length) (hall : ∀ r ∈ hist, r.close = c) (hc : c ≠ 0) :
    lastDailyChange hist = FVal.fin 0 := by
  unfold lastDailyChange dailyChangeAt
  have hne : hist.length - 1 ≠ 0 := by omega
  have h1 : (hist.map (·.close)).getD (hist.length - 1) 0 = c :=
    closes_getD_of_mem hist c _ (by omega) hall
  have h2 : (hist.map (·.close)).getD (hist.length - 1 - 1) 0 = c :=
    closes_getD_of_mem hist c _ (by omega) hall
  rw [if_neg hne, h1, h2]
  simp [FVal.div, FVal.sub, FVal.mul100, hc, div_self]

/-- C6 witness: a concrete two-row series with constant close 7. -/
theorem C6_witness :
    lastDailyChange [⟨0, 7, 5⟩, ⟨1, 7, 5⟩] = FVal.fin 0 :=
  C6_amended_constant_close [⟨0, 7, 5⟩, ⟨1, 7, 5⟩] 7 (by decide)
    (by decide) (by decide)

/-- C7 counterexample: ten rows of volume 0.  The last volume equals the
last trailing-10 average (both 0), yet the volume change is NaN (pandas
computes 0/0), not 0, so the claim as stated fails. -/
theorem C7_counterexample :
    FVal.fin ((ce7.map (·.volume)).getD (ce7.length - 1) 0) =
      avgVolumeAt (ce7.map (·.volume)) (ce7.length - 1) ∧
    lastVolumeChange ce7 ≠ FVal.fin 0 := by
  constructor
  · norm_num [ce7, avgVolumeAt]
  · have h : lastVolumeChange ce7 = FVal.nan := by
      norm_num [ce7, lastVolumeChange, volumeChangeAt, avgVolumeAt,
        FVal.sub, FVal.div, FVal.mul100]
    rw [h]
    exact fun hcontra => FVal.noConfusion hcontra

/-- C7 (amended): whenever the last row's volume equals the (defined)
trailing-10-period average volume of the last row and that common value is
nonzero, the volume change of the last row is 0.  (The original claim
fails when the common value is 0: pandas then evaluates 0/0, which is
NaN.) -/
theorem C7_amended_volume_equals_avg (hist : List PriceRow) (a : Rat)
    (havg : avgVolumeAt (hist.map (·.volume)) (hist.length - 1) = FVal.fin a)
    (hvol : (hist.map (·.volume)).getD (hist.length - 1) 0 = a)
    (ha : a ≠ 0) :
    lastVolumeChange hist = FVal.fin 0 := by
  unfold lastVolumeChange volumeChangeAt
  rw [havg, hvol]
  simp [FVal.sub, FVal.div, FVal.mul100, ha]

/-- C7 witness: ten rows of volume 7; the average is 7 and the volume
change of the last row evaluates to 0. -/
theorem C7_witness :
    lastVolumeChange
      [⟨0, 1, 7⟩, ⟨1, 1, 7⟩, ⟨2, 1, 7⟩, ⟨3, 1, 7⟩, ⟨4, 1, 7⟩,
       ⟨5, 1, 7⟩, ⟨6, 1, 7⟩, ⟨7, 1, 7⟩, ⟨8, 1, 7⟩, ⟨9, 1, 7⟩] = FVal.fin 0 :=
  C7_amended_volume_equals_avg _ 7 (by norm_num [avgVolumeAt]) (by norm_num) (by norm_num)

theorem take_drop_window (l : List Rat) (d c : Nat) (h : d + c ≤ l.length) :
    (l.drop d).take c = (List.range c).map (fun k => l.getD (d + k) 0) := by
  apply List.ext_getElem
  · simp
    omega
  · intro i h1 h2
    have hi : i < c := by
      simpa using h2
    have hdi : d + i < l.length := by omega
    rw [List.getElem_take, List.getElem_drop, List.getElem_map, List.getElem_range,
      List.getD_eq_getElem _ _ hdi]

theorem avgVolumeAt_eq_spec (vols : List Rat) (i : Nat) (h : i < vols.length) :
    avgVolumeAt vols i = specAvgVolumeAt vols i := by
  unfold avgVolumeAt specAvgVolumeAt
  by_cases h9 : i < 9
  · simp [h9]
  · simp only [h9, if_false]
    rw [take_drop_window vols (i - 9) 10 (by omega)]

theorem volumeChangeAt_eq_spec (vols : List Rat) (i : Nat) (h : i < vols.length) :
    volumeChangeAt vols i = specVolumeChangeAt vols i := by
  unfold volumeChangeAt specVolumeChangeAt
  rw [avgVolumeAt_eq_spec vols i h]

theorem lastRow_eq_getLast (hist : List PriceRow) (hne : hist ≠ []) :
    lastRow hist = hist.getLast hne := by
  unfold lastRow
  have hlt : hist.length - 1 < hist.length := by
    cases hist with
    | nil => exact absurd rfl hne
    | cons a l => simp
  rw [List.getD_eq_getElem _ _ hlt, List.getLast_eq_getElem]

/-- C1: for every non-empty PriceSeries, the MetricRow produced by
`analyze_stock` matches the reference definitions: its average volume,
volume change and daily change are the spec's trailing-mean /
percentage-deviation / daily-percentage formulas evaluated at the last
index, and it carries the last row's close, volume and date. -/
theorem C1_analyze_matches_reference (symbol : String) (hist : List PriceRow)
    (ytdStart : Int) (r : MetricRow) (hne : hist ≠ [])
    (h : analyze_stock symbol hist ytdStart = .row r) :
    r.avgVolume = specAvgVolumeAt (hist.map (·.volume)) (hist.length - 1) ∧
    r.volumeChange = specVolumeChangeAt (hist.map (·.volume)) (hist.length - 1) ∧
    r.dailyChange = specDailyChangeAt (hist.map (·.close)) (hist.length - 1) ∧
    r.close = (hist.getLast hne).close ∧
    r.volume = (hist.getLast hne).volume ∧
    r.date = (hist.getLast hne).date := by
  have hlt : hist.length - 1 < (hist.map (·.volume)).length := by
    cases hist with
    | nil => exact absurd rfl hne
    | cons a l => simp
  have hltc : hist.length - 1 < hist.length := by
    simpa using hlt
  unfold analyze_stock at h
  rw [if_neg (by simp [hne])] at h
  cases hfind : hist.find? (fun r => decide (ytdStart ≤ r.date)) with
  | none =>
    rw [hfind] at h
    exact absurd h (by simp)
  | some r0 =>
    rw [hfind] at h
    have hr := (AnalyzeResult.row.injEq _ _).mp h.symm
    subst hr
    refine ⟨?_, ?_, ?_, ?_, ?_, ?_⟩
    · exact avgVolumeAt_eq_spec _ _ hlt
    · exact volumeChangeAt_eq_spec _ _ hlt
    · exact dailyChangeAt_eq_spec _ _
    · rw [lastRow_eq_getLast hist hne]
    · rw [lastRow_eq_getLast hist hne]
    · rw [lastRow_eq_getLast hist hne]

/-- C1 witness: a concrete one-row series on the YTD start date. -/
theorem C1_witness :
    let hist1 : List PriceRow := [⟨0, 10, 5⟩]
    let rW : MetricRow :=
      { symbol := "X", close := 10, dailyChange := .nan, ytdReturn := .fin 0,
        volume := 5, avgVolume := .nan, volumeChange := .nan, date := 0 }
    rW.avgVolume = specAvgVolumeAt (hist1.map (·.volume)) (hist1.length - 1) ∧
    rW.volumeChange = specVolumeChangeAt (hist1.map (·.volume)) (hist1.length - 1) ∧
    rW.dailyChange = specDailyChangeAt (hist1.map (·.close)) (hist1.length - 1) ∧
    rW.close = (hist1.getLast (by decide)).close ∧
    rW.volume = (hist1.getLast (by decide)).volume ∧
    rW.date = (hist1.getLast (by decide)).date :=
  C1_analyze_matches_reference "X" [⟨0, 10, 5⟩] 0
    { symbol := "X", close := 10, dailyChange := .nan, ytdReturn := .fin 0,
      volume := 5, avgVolume := .nan, volumeChange := .nan, date := 0 }
    (by decide)
    (by norm_num [analyze_stock, lastRow, dailyChangeAt, avgVolumeAt, volumeChangeAt,
      FVal.sub, FVal.div, FVal.mul100, List.find?])

theorem collectResults_error_of_mem (fetch : String → List PriceRow) (ytdStart : Int)
    (symbols : List String) (s : String) (hs : s ∈ symbols)
    (herr : analyze_stock s (fetch s) ytdStart = .ytdError) :
    collectResults fetch ytdStart symbols = .error () := by
  induction symbols with
  | nil => exact absurd hs (List.not_mem_nil s)
  | cons a rest ih =>
    rcases List.mem_cons.mp hs with rfl | hmem
    · unfold collectResults
      rw [herr]
    · unfold collectResults
      cases hres : analyze_stock a (fetch a) ytdStart with
      | noData => exact ih hmem
      | ytdError => rfl
      | row r =>
        rw [ih hmem]
        rfl

/-- C4: a non-empty series with no observation on/after the YTD start
makes `analyze_stock` fail with the lookup error, and the failure
propagates: any refresh whose watchlist contains that symbol crashes
(nothing catches it in this revision). -/
theorem C4_ytd_lookup_failure (symbol : String) (hist : List PriceRow) (ytdStart : Int)
    (hne : hist ≠ []) (hold : ∀ r ∈ hist, r.date < ytdStart) :
    analyze_stock symbol hist ytdStart = .ytdError ∧
    ∀ (fetch : String → List PriceRow) (symbols : List String),
      symbol ∈ symbols → fetch symbol = hist →
      runVolumeTracker fetch ytdStart symbols = .crash := by
  have hfind : hist.find? (fun r => decide (ytdStart ≤ r.date)) = none := by
    rw [List.find?_eq_none]
    intro x hx
    simp only [decide_eq_true_eq, not_le]
    exact hold x hx
  have hana : analyze_stock symbol hist ytdStart = .ytdError := by
    unfold analyze_stock
    rw [if_neg (by simp [hne]), hfind]
  refine ⟨hana, ?_⟩
  intro fetch symbols hmem hfetch
  have hcol : collectResults fetch ytdStart symbols = .error () :=
    collectResults_error_of_mem fetch ytdStart symbols symbol hmem
      (by rw [hfetch]; exact hana)
  unfold runVolumeTracker
  rw [if_neg (by simp [List.ne_nil_of_mem hmem]), hcol]

/-- C4 witness: one observation dated before the YTD start; the single
symbol "X" crashes the refresh. -/
theorem C4_witness :
    analyze_stock "X" [⟨0, 5, 5⟩] 1 = .ytdError ∧
    runVolumeTracker (fun _ => [⟨0, 5, 5⟩]) 1 ["X"] = .crash := by
  have h := C4_ytd_lookup_failure "X" [⟨0, 5, 5⟩] 1 (by decide) (by decide)
  exact ⟨h.1, h.2 (fun _ => [⟨0, 5, 5⟩]) ["X"] (by decide) rfl⟩

theorem analyze_row_of_find (symbol : String) (hist : List PriceRow) (ytdStart : Int)
    (hne : hist ≠ []) (hex : ∃ r ∈ hist, ytdStart ≤ r.date) :
    ∃ mr, analyze_stock symbol hist ytdStart = .row mr ∧ mr.symbol = symbol := by
  have hsome : (hist.find? (fun r => decide (ytdStart ≤ r.date))).isSome := by
    rw [List.find?_isSome]
    obtain ⟨r, hr, hle⟩ := hex
    exact ⟨r, hr, by simpa using hle⟩
  cases hfind : hist.find? (fun r => decide (ytdStart ≤ r.date)) with
  | none =>
    rw [hfind] at hsome
    simp at hsome
  | some r0 =>
    refine ⟨{ symbol := symbol
              close := (lastRow hist).close
              dailyChange := dailyChangeAt (hist.map (·.close)) (hist.length - 1)
              ytdReturn :=
                (((FVal.fin (lastRow hist).close).sub (FVal.fin r0.close)).div
                  (FVal.fin r0.close)).mul100
              volume := (lastRow hist).volume
              avgVolume := avgVolumeAt (hist.map (·.volume)) (hist.length - 1)
              volumeChange := volumeChangeAt (hist.map (·.volume)) (hist.length - 1)
              date := (lastRow hist).date }, ?_, rfl⟩
    unfold analyze_stock
    rw [if_neg (by simp [hne]), hfind]

/-- C5 counterexample: symbol A fetches an empty series and symbol B a
non-empty one, but B's only observation predates the YTD start, so the
aggregation raises instead of producing exactly one row for B; the claim
as universally stated fails. -/
theorem C5_counterexample :
    fetchCE5 "A" = [] ∧ fetchCE5 "B" ≠ [] ∧
    collectResults fetchCE5 10 ["A", "B"] = .error () :=
  ⟨rfl, by decide, rfl⟩

/-- C5 (amended): a symbol whose fetch yields an empty series produces
the no-data sentinel and is silently excluded: aggregating over
A (empty) and B (non-empty) yields exactly one row, for B, with no error
row for A — provided B's series reaches the YTD start, since otherwise
the YTD lookup failure of C4 aborts the whole aggregation. -/
theorem C5_amended_empty_excluded (fetch : String → List PriceRow) (ytdStart : Int)
    (A B : String) (hA : fetch A = []) (hBne : fetch B ≠ [])
    (hBytd : ∃ r ∈ fetch B, ytdStart ≤ r.date) :
    ∃ mr, collectResults fetch ytdStart [A, B] = .ok [mr] ∧ mr.symbol = B := by
  obtain ⟨mr, hrow, hsym⟩ := analyze_row_of_find B (fetch B) ytdStart hBne hBytd
  refine ⟨mr, ?_, hsym⟩
  have hAna : analyze_stock A (fetch A) ytdStart = .noData := by
    rw [hA]
    rfl
  show collectResults fetch ytdStart (A :: [B]) = .ok [mr]
  unfold collectResults
  rw [hAna]
  unfold collectResults
  rw [hrow]
  rfl

/-- C5 witness: symbol B has one observation on the YTD start date. -/
theorem C5_witness :
    ∃ mr, collectResults fetchW5 0 ["A", "B"] = .ok [mr] ∧ mr.symbol = "B" :=
  C5_amended_empty_excluded fetchW5 0 "A" "B" rfl (by decide)
    ⟨⟨5, 8, 3⟩, by decide, by decide⟩

theorem collectResults_all_empty (fetch : String → List PriceRow) (ytdStart : Int)
    (symbols : List String) (hall : ∀ s ∈ symbols, fetch s = []) :
    collectResults fetch ytdStart symbols = .ok [] := by
  induction symbols with
  | nil => rfl
  | cons a rest ih =>
    have ha : analyze_stock a (fetch a) ytdStart = .noData := by
      rw [hall a (List.mem_cons_self a rest)]
      rfl
    unfold collectResults
    rw [ha]
    exact ih (fun s hs => hall s (List.mem_cons_of_mem a hs))

/-- C8: when the watchlist is non-empty and every tracked symbol's fetch
yields no data, the refresh reports the "no valid data" warning rather
than rendering an empty table. -/
theorem C8_no_valid_data (fetch : String → List PriceRow) (ytdStart : Int)
    (symbols : List String) (hne : symbols ≠ [])
    (hall : ∀ s ∈ symbols, fetch s = []) :
    runVolumeTracker fetch ytdStart symbols = .noValidData := by
  unfold runVolumeTracker
  rw [if_neg (by simp [hne]), collectResults_all_empty fetch ytdStart symbols hall]

/-- C8 witness: a single tracked symbol whose fetch is empty. -/
theorem C8_witness :
    runVolumeTracker (fun _ => []) 0 ["X"] = .noValidData :=
  C8_no_valid_data (fun _ => []) 0 ["X"] (by decide) (fun _ _ => rfl)

/-- C3 (code bug): `user_symbols` declares no uniqueness constraint, so
the duplicate INSERT raises no `IntegrityError`: adding the same
(owner, symbol) twice succeeds both times and leaves two entries in the
watchlist, while the spec (and the UI's "already exists" branch, which
this makes unreachable) require the second call to fail and one entry to
remain. -/
theorem C3_duplicate_symbol_accepted :
    ((add_symbol ⟨[], []⟩ 1 "AAPL").2 = true) ∧
    ((add_symbol (add_symbol ⟨[], []⟩ 1 "AAPL").1 1 "AAPL").2 = true) ∧
    get_user_symbols (add_symbol (add_symbol ⟨[], []⟩ 1 "AAPL").1 1 "AAPL").1 1 =
      ["AAPL", "AAPL"] :=
  ⟨rfl, rfl, rfl⟩

/-- C10: if registration succeeds, logging in with the same password
returns the id of the inserted user, and logging in with any password
hashing differently returns `None`. -/
theorem C10_register_login_roundtrip (h : String → String) (db : DB) (u p : String)
    (hadd : (add_user h db u p).2 = true) :
    verify_user h (add_user h db u p).1 u p = some (nextUserId db) ∧
    ∀ q : String, h q ≠ h p → verify_user h (add_user h db u p).1 u q = none := by
  by_cases hex : db.users.any (fun v => v.username == u)
  · unfold add_user at hadd
    rw [if_pos hex] at hadd
    exact absurd hadd (by simp)
  · have hnone : db.users.find? (fun v => v.username == u) = none := by
      rw [List.find?_eq_none]
      intro x hx hxu
      exact hex (List.any_eq_true.mpr ⟨x, hx, hxu⟩)
    have hdb1 : (add_user h db u p).1 =
        { db with users := db.users ++ [⟨nextUserId db, u, h p⟩] } := by
      unfold add_user
      rw [if_neg hex]
    constructor
    · rw [hdb1]
      unfold verify_user
      rw [show ({ db with users := db.users ++ [⟨nextUserId db, u, h p⟩] } : DB).users =
        db.users ++ [⟨nextUserId db, u, h p⟩] from rfl]
      rw [List.find?_append, hnone]
      simp [List.find?]
    · intro q hq
      rw [hdb1]
      unfold verify_user
      rw [show ({ db with users := db.users ++ [⟨nextUserId db, u, h p⟩] } : DB).users =
        db.users ++ [⟨nextUserId db, u, h p⟩] from rfl]
      rw [List.find?_append, hnone]
      simp [List.find?, Ne.symm hq]

/-- C10 witness: register "pranav" in an empty database (with the
identity standing in for the hash function) and verify both passwords. -/
theorem C10_witness :
    verify_user (fun s => s) (add_user (fun s => s) ⟨[], []⟩ "pranav" "learn to code").1
      "pranav" "learn to code" = some (nextUserId ⟨[], []⟩) ∧
    verify_user (fun s => s) (add_user (fun s => s) ⟨[], []⟩ "pranav" "learn to code").1
      "pranav" "wrong" = none := by
  have h := C10_register_login_roundtrip (fun s => s) ⟨[], []⟩ "pranav" "learn to code" rfl
  exact ⟨h.1, h.2 "wrong" (by decide)⟩

theorem FVal.lt_eq_false (x y : FVal)
    (h : y.rank < x.rank ∨ (y.rank = x.rank ∧ y.finVal ≤ x.finVal)) :
    x.lt y = false := by
  cases x <;> cases y <;>
    simp_all [FVal.lt, FVal.rank, FVal.finVal]

theorem keyR_total (keys : List FVal) : ∀ i j, keyR keys i j ∨ keyR keys j i := by
  intro i j
  unfold keyR
  rcases lt_trichotomy (keys.getD i .nan).rank (keys.getD j .nan).rank with h | h | h
  · exact Or.inl (Or.inl h)
  · rcases lt_trichotomy (keys.getD i .nan).finVal (keys.getD j .nan).finVal with h2 | h2 | h2
    · exact Or.inl (Or.inr ⟨h, Or.inl h2⟩)
    · rcases Nat.le_total j i with h3 | h3
      · exact Or.inl (Or.inr ⟨h, Or.inr ⟨h2, h3⟩⟩)
      · exact Or.inr (Or.inr ⟨h.symm, Or.inr ⟨h2.symm, h3⟩⟩)
    · exact Or.inr (Or.inr ⟨h.symm, Or.inl h2⟩)
  · exact Or.inr (Or.inl h)

theorem keyR_trans (keys : List FVal) :
    ∀ i j k, keyR keys i j → keyR keys j k → keyR keys i k := by
  intro i j k hij hjk
  unfold keyR at hij hjk ⊢
  rcases hij with h1 | ⟨h1, h1f⟩
  · rcases hjk with h2 | ⟨h2, _⟩
    · exact Or.inl (lt_trans h1 h2)
    · exact Or.inl (h1.trans_eq h2)
  · rcases hjk with h2 | ⟨h2, h2f⟩
    · exact Or.inl (h1.trans_lt h2)
    · refine Or.inr ⟨h1.trans h2, ?_⟩
      rcases h1f with hf1 | ⟨hf1, hi1⟩
      · rcases h2f with hf2 | ⟨hf2, _⟩
        · exact Or.inl (lt_trans hf1 hf2)
        · exact Or.inl (hf1.trans_eq hf2)
      · rcases h2f with hf2 | ⟨hf2, hi2⟩
        · exact Or.inl (hf1.trans_lt hf2)
        · exact Or.inr ⟨hf1.trans hf2, le_trans hi2 hi1⟩

theorem keyR_tie {keys : List FVal} {a b : Nat}
    (hk : keys.getD a .nan = keys.getD b .nan)
    (hR : keyR keys b a) (hne : a ≠ b) : a < b := by
  unfold keyR at hR
  rw [hk] at hR
  rcases hR with h | ⟨_, h | ⟨_, hle⟩⟩
  · exact absurd h (lt_irrefl _)
  · exact absurd h (lt_irrefl _)
  · exact Nat.lt_of_le_of_ne hle hne

theorem nargsortDesc_perm (keys : List FVal) :
    (nargsortDesc keys).Perm (List.range keys.length) := by
  unfold nargsortDesc
  have h1 : (List.insertionSort (keyR keys)
      (((List.range keys.length).filter (fun i => !(keys.getD i .nan).isNan)).reverse)).reverse.Perm
      ((List.range keys.length).filter (fun i => !(keys.getD i .nan).isNan)) :=
    (List.reverse_perm _).trans ((List.perm_insertionSort _ _).trans (List.reverse_perm _))
  have h2 := List.filter_append_perm (fun i => !(keys.getD i .nan).isNan)
    (List.range keys.length)
  simp only [Bool.not_not] at h2
  exact (h1.append (List.Perm.refl _)).trans h2

theorem nargsortDesc_pairwise (keys : List FVal) :
    List.Pairwise (afterRel keys) (nargsortDesc keys) := by
  unfold nargsortDesc
  rw [List.pairwise_append]
  refine ⟨?_, ?_, ?_⟩
  · haveI : IsTotal Nat (keyR keys) := ⟨keyR_total keys⟩
    haveI : IsTrans Nat (keyR keys) := ⟨keyR_trans keys⟩
    have hsorted : List.Pairwise (keyR keys)
        (List.insertionSort (keyR keys) (((List.range keys.length).filter
          (fun i => !(keys.getD i .nan).isNan)).reverse)) :=
      List.sorted_insertionSort (keyR keys) _
    have hrev : List.Pairwise (fun a b => keyR keys b a)
        (List.insertionSort (keyR keys) (((List.range keys.length).filter
          (fun i => !(keys.getD i .nan).isNan)).reverse)).reverse :=
      List.pairwise_reverse.mpr hsorted
    have hnd : (List.insertionSort (keyR keys) (((List.range keys.length).filter
        (fun i => !(keys.getD i .nan).isNan)).reverse)).reverse.Nodup := by
      rw [List.nodup_reverse]
      exact (List.perm_insertionSort (keyR keys) _).nodup_iff.mpr
        (List.nodup_reverse.mpr (List.Nodup.filter _ (List.nodup_range _)))
    refine List.Pairwise.imp_of_mem ?_ (hrev.and hnd)
    intro a b ha hb hab
    have hamem : a ∈ (List.range keys.length).filter
        (fun i => !(keys.getD i .nan).isNan) := by
      have h1 := List.mem_reverse.mp ha
      simpa using h1
    have hbmem : b ∈ (List.range keys.length).filter
        (fun i => !(keys.getD i .nan).isNan) := by
      have h1 := List.mem_reverse.mp hb
      simpa using h1
    have hanan : (keys.getD a .nan).isNan = false := by
      have h1 := (List.mem_filter.mp hamem).2
      simpa using h1
    have hbnan : (keys.getD b .nan).isNan = false := by
      have h1 := (List.mem_filter.mp hbmem).2
      simpa using h1
    refine Or.inr ⟨hanan, ?_, ?_⟩
    · apply FVal.lt_eq_false
      rcases hab.1 with h | ⟨heq, hf⟩
      · exact Or.inl h
      · refine Or.inr ⟨heq, ?_⟩
        rcases hf with hf | ⟨hf, _⟩
        · exact le_of_lt hf
        · exact le_of_eq hf
    · intro hk
      exact keyR_tie hk hab.1 hab.2
  · apply List.pairwise_of_forall_mem_list
    intro a _ b hb
    have h1 := (List.mem_filter.mp hb).2
    exact Or.inl (by simpa using h1)
  · intro a _ b hb
    have h1 := (List.mem_filter.mp hb).2
    exact Or.inl (by simpa using h1)

theorem buildTable_tie_preserved :
    mrA.volumeChange = mrB.volumeChange ∧ mrA ≠ mrB ∧
    buildTable [mrA, mrB] = [toDisplay mrA, toDisplay mrB] :=
  ⟨rfl, by decide, rfl⟩

/-- C2: the ranked table maps the metric rows through the `sort_values`
indexer; that indexer is a permutation of all row positions in which
every non-NaN key weakly dominates every later key in the float order,
NaN-keyed rows come last, and rows with exactly equal volume-change keys
appear in original fetch order — the sort is stable, because pandas
reverses both the input and the resulting indexer of a stable ascending
argsort for `ascending=False`. -/
theorem C2_sorted_desc_stable (results : List MetricRow) :
    buildTable results =
      (nargsortDesc (results.map (·.volumeChange))).map
        (fun i => toDisplay (results.getD i default)) ∧
    (nargsortDesc (results.map (·.volumeChange))).Perm (List.range results.length) ∧
    List.Pairwise (afterRel (results.map (·.volumeChange)))
      (nargsortDesc (results.map (·.volumeChange))) := by
  refine ⟨rfl, ?_, nargsortDesc_pairwise _⟩
  have h := nargsortDesc_perm (results.map (·.volumeChange))
  simpa using h

theorem roundHalfEven_zero : roundHalfEven 0 = 0 := by
  have h : Rat.floor 0 = 0 := rfl
  norm_num [roundHalfEven, h]

/-- C9: a metric row whose rolling average volume is NaN is still
rendered (not excluded and no failure), and its displayed `Avg_Volume`
is 0 — `fillna(0)` replaces the NaN before the rounding and the integer
cast. -/
theorem C9_nan_avg_rendered_zero (results : List MetricRow) (r : MetricRow)
    (hmem : r ∈ results) (hnan : r.avgVolume = FVal.nan) :
    (toDisplay r).avgVolume = 0 ∧ toDisplay r ∈ buildTable results := by
  constructor
  · unfold toDisplay
    rw [hnan]
    exact roundHalfEven_zero
  · obtain ⟨i, hi, hgi⟩ := List.getElem_of_mem hmem
    have hperm := nargsortDesc_perm (results.map (·.volumeChange))
    have hin : i ∈ nargsortDesc (results.map (·.volumeChange)) := by
      rw [hperm.mem_iff]
      simp only [List.length_map]
      exact List.mem_range.mpr hi
    unfold buildTable
    refine List.mem_map.mpr ⟨i, hin, ?_⟩
    rw [List.getD_eq_getElem _ _ hi, hgi]

/-- C9 witness: a single metric row with NaN average volume. -/
theorem C9_witness :
    (toDisplay mrNan).avgVolume = 0 ∧ toDisplay mrNan ∈ buildTable [mrNan] :=
  C9_nan_avg_rendered_zero [mrNan] mrNan (by decide) rfl
